import Mathlib

/-!
Verification development for the support-assistant repository.

The autoplay text-to-speech queue, message handling and transcript handling are
embedded from frontend/src/components/ChatWindow.jsx; the chat service fallback
from frontend/src/services/chatService.js; the auto-capture scheduler is
modelled from the specification, since its implementation is not part of the
provided sources (the README documents it as part of ScreenShare.jsx, but the
provided ScreenShare.jsx predates the feature).
-/

namespace Support

/-- Message identifiers as the JavaScript values the source uses: the initial
greeting has the numeric id 1, every other message gets a template string such
as ai-123 or user-123; a JS Set distinguishes the number 1 from the string 1. -/
inductive MsgId where
  | num (n : Nat)
  | str (s : String)
deriving DecidableEq, Repr

/-- Sender field of a chat message; the source stores the strings user and ai. -/
inductive Sender where
  | user
  | ai
deriving DecidableEq, Repr

/-- A chat message as kept in the ChatWindow messages state. Only the fields
the playback queue inspects are modelled: id, sender and text. -/
structure Message where
  id : MsgId
  sender : Sender
  text : String
deriving DecidableEq, Repr

/-- The initial greeting message from the ChatWindow initial messages state:
id 1 (a number), sender ai. -/
def greeting : Message :=
  { id := MsgId.num 1, sender := Sender.ai,
    text := "Hello! I’m your AI support assistant. How can I help you today?" }

/-- The ways a playAIMessageTTS call can settle: the three audio element
callbacks (onended, onerror, a rejected play call) versus the two gateway
failures that land in the surrounding catch block (a non-ok response makes the
code throw, a network error makes fetch itself reject). -/
inductive TTSOutcome where
  | audioEnded
  | audioError
  | playRejected
  | fetchNotOk
  | networkError
deriving DecidableEq, Repr

/-- playAIMessageTTS adds the message id to the playedMessageIds ref only in
the three audio element callbacks; the catch block that receives a failed or
non-ok fetch only logs and clears isPlayingAudio, it does not add the id. -/
def marksPlayed : TTSOutcome → Bool
  | .audioEnded => true
  | .audioError => true
  | .playRejected => true
  | .fetchNotOk => false
  | .networkError => false

/-- The filter in playNextMessage: messages whose sender is ai. -/
def aiMessages (msgs : List Message) : List Message :=
  msgs.filter (fun m => decide (m.sender = Sender.ai))

/-- The selection in playNextMessage: the first assistant message whose id is
not yet in playedMessageIds. -/
def selectNext (msgs : List Message) (played : List MsgId) : Option Message :=
  (aiMessages msgs).find? (fun m => !(decide (m.id ∈ played)))

/-- The guard computed by the autoplay useEffect: some assistant message is
still unplayed. -/
def hasUnplayed (msgs : List Message) (played : List MsgId) : Bool :=
  (aiMessages msgs).any (fun m => !(decide (m.id ∈ played)))

/-- JS Set.add on the playedMessageIds ref, modelled on a duplicate-free list. -/
def insertId (played : List MsgId) (x : MsgId) : List MsgId :=
  if x ∈ played then played else played ++ [x]

/-- An in-flight synthesis-and-playback operation together with the render
environment its continuation closed over. In the source, playNextMessage is a
closure over one render of ChatWindow: the isAutoplayActive flag and the
messages array it reads after the awaited playAIMessageTTS settles are the
values captured at that render, while playedMessageIdsRef is a ref and is
always read live. -/
structure Cont where
  capturedActive : Bool
  capturedMessages : List Message
  currentId : MsgId
deriving DecidableEq, Repr

/-- State of the ChatWindow autoplay subsystem: the current React state
(messages, isAutoplayActive, isPlayingAudio), the playedMessageIds ref, the
multiset of in-flight operations, and a chronological log of every id passed
to playAIMessageTTS (one entry per narration attempt started). -/
structure ChatState where
  messages : List Message
  isAutoplayActive : Bool
  isPlayingAudio : Bool
  playedMessageIds : List MsgId
  pending : List Cont
  started : List MsgId
deriving DecidableEq, Repr

/-- Events driving the autoplay subsystem: the autoplay toggle button, a new
message arrival (setMessages append from sendMessage, the ai-message handler or
the transcript callback), a run of the autoplay useEffect, and the settling of
the i-th in-flight synthesis with a given outcome. -/
inductive Event where
  | toggle (b : Bool)
  | arrive (m : Message)
  | effectFire
  | complete (i : Nat) (o : TTSOutcome)
deriving DecidableEq, Repr

/-- The tail of playNextMessage after the awaited playAIMessageTTS settles: the
code checks the captured isAutoplayActive, re-enters playNextMessage with the
same closure (captured messages, captured flag, live playedMessageIds ref) and
either starts the next synthesis or, finding none, clears isPlayingAudio. -/
def runChain (s : ChatState) (c : Cont) : ChatState :=
  if c.capturedActive then
    match selectNext c.capturedMessages s.playedMessageIds with
    | some m =>
        { s with isPlayingAudio := true,
                 pending := s.pending ++ [⟨c.capturedActive, c.capturedMessages, m.id⟩],
                 started := s.started ++ [m.id] }
    | none => { s with isPlayingAudio := false }
  else s

/-- One scheduling step of the autoplay subsystem. toggle is toggleAutoplay
(disable also clears isPlayingAudio); arrive appends a message; effectFire is
the autoplay useEffect, which starts a playback chain only when autoplay is
active, nothing is playing and an unplayed assistant message exists; complete
settles the i-th in-flight operation: the audio callbacks mark the id played,
the catch path does not, and then the continuation runs with its captured
environment. -/
def step (s : ChatState) : Event → Option ChatState
  | .toggle b =>
      some { s with isAutoplayActive := b,
                    isPlayingAudio := if b then s.isPlayingAudio else false }
  | .arrive m => some { s with messages := s.messages ++ [m] }
  | .effectFire =>
      if s.isAutoplayActive && !s.isPlayingAudio
          && hasUnplayed s.messages s.playedMessageIds then
        match selectNext s.messages s.playedMessageIds with
        | some m =>
            some { s with isPlayingAudio := true,
                          pending := s.pending ++ [⟨true, s.messages, m.id⟩],
                          started := s.started ++ [m.id] }
        | none => some { s with isPlayingAudio := false }
      else none
  | .complete i o =>
      match s.pending[i]? with
      | some c =>
          some (runChain
            { s with pending := s.pending.eraseIdx i,
                     playedMessageIds :=
                       if marksPlayed o then insertId s.playedMessageIds c.currentId
                       else s.playedMessageIds,
                     isPlayingAudio := false } c)
      | none => none

/-- ChatWindow state right after mount: only the greeting message is present,
autoplay is off, and the mount useEffect has pre-marked the greeting id 1 as
played. -/
def initState : ChatState :=
  { messages := [greeting], isAutoplayActive := false, isPlayingAudio := false,
    playedMessageIds := [MsgId.num 1], pending := [], started := [] }

/-- Run a list of events from a state; none when some event does not apply. -/
def run (s : ChatState) : List Event → Option ChatState
  | [] => some s
  | e :: es =>
      match step s e with
      | some t => run t es
      | none => none

/-- States reachable from a given state by scheduler steps. -/
inductive ReachFrom (s0 : ChatState) : ChatState → Prop where
  | refl : ReachFrom s0 s0
  | tail {s t : ChatState} (e : Event) : ReachFrom s0 s → step s e = some t → ReachFrom s0 t

/-- States reachable from the mounted ChatWindow. -/
abbrev Reachable (s : ChatState) : Prop := ReachFrom initState s

/-- The state reached by a list of events from the mounted ChatWindow (defaults
to the initial state on an inapplicable trace; only used on valid traces). -/
def stateAfter (tr : List Event) : ChatState := (run initState tr).getD initState

/-! The CaptureScheduler. The README documents automatic screenshot capture
every 10 seconds during screen sharing as part of ScreenShare.jsx, but the
provided copy of ScreenShare.jsx predates the feature and contains no timer,
so the scheduler is modelled from the specification. -/

/-- Modelled from the spec: the fixed period of the capture timer, 10 time
units. -/
def capturePeriod : Nat := 10

/-- Modelled from the spec: the result of one capture-and-upload cycle at the
OCR gateway — success with optionally extracted text, or a failure. -/
inductive CapResult where
  | success (extracted : Option String)
  | failure
deriving DecidableEq, Repr

/-- Modelled from the spec: the arrival-worthy message a completed upload
publishes — the extracted text when present, otherwise a reference to the raw
screenshot. -/
inductive CapMsg where
  | extractedText (t : String)
  | imageRef
deriving DecidableEq, Repr

/-- Modelled from the spec: events of the CaptureScheduler — session start,
a timer tick, settling of an upload, session stop. Each event carries the time
at which it occurs. -/
inductive CapEvent where
  | start
  | tick
  | complete (r : CapResult)
  | stop
deriving DecidableEq, Repr

/-- Modelled from the spec: state of the CaptureScheduler — current time, the
session active flag, the next scheduled tick time (none when the timer is
cancelled), the number of in-flight capture-and-upload operations, a count of
captures performed, and the log of arrival messages published to the event
bus. -/
structure CapState where
  clock : Nat
  active : Bool
  deadline : Option Nat
  inFlight : Nat
  captures : Nat
  published : List CapMsg
deriving DecidableEq, Repr

/-- Modelled from the spec: one step of the CaptureScheduler. On session start
the fixed-period timer begins. A tick fires only while the session is active
and at its scheduled deadline; it reschedules the timer, and performs a capture
and upload only when no previous cycle is still pending — otherwise it is
dropped entirely, performing no capture and no upload. A completed upload
publishes its message only while the session is still active; after a stop its
result is discarded, and upload failures publish nothing. Stop clears the
active flag and cancels the timer. -/
def capStep (s : CapState) : Nat × CapEvent → Option CapState
  | (t, e) =>
    if s.clock ≤ t then
      match e with
      | .start =>
          if s.active then none
          else some { s with clock := t, active := true,
                             deadline := some (t + capturePeriod) }
      | .tick =>
          if s.active = true ∧ s.deadline = some t then
            if s.inFlight = 0 then
              some { s with clock := t, deadline := some (t + capturePeriod),
                            inFlight := 1, captures := s.captures + 1 }
            else
              some { s with clock := t, deadline := some (t + capturePeriod) }
          else none
      | .complete r =>
          if s.inFlight = 0 then none
          else
            let pub : List CapMsg :=
              if s.active then
                match r with
                | .success (some txt) => [CapMsg.extractedText txt]
                | .success none => [CapMsg.imageRef]
                | .failure => []
              else []
            some { s with clock := t, inFlight := s.inFlight - 1,
                          published := s.published ++ pub }
      | .stop =>
          if s.active then
            some { s with clock := t, active := false, deadline := none }
          else none
    else none

/-- Modelled from the spec: the CaptureScheduler before any session. -/
def capInit : CapState :=
  { clock := 0, active := false, deadline := none, inFlight := 0,
    captures := 0, published := [] }

/-- Run a list of timed events through the CaptureScheduler. -/
def capRun (s : CapState) : List (Nat × CapEvent) → Option CapState
  | [] => some s
  | e :: es =>
      match capStep s e with
      | some t => capRun t es
      | none => none

/-- CaptureScheduler states reachable from a given state. -/
inductive CapReachFrom (s0 : CapState) : CapState → Prop where
  | refl : CapReachFrom s0 s0
  | tail {s t : CapState} (e : Nat × CapEvent) :
      CapReachFrom s0 s → capStep s e = some t → CapReachFrom s0 t

/-- CaptureScheduler states reachable from the idle scheduler. -/
abbrev CapReachable (s : CapState) : Prop := CapReachFrom capInit s

/-! The chat service fallback path, from chatService.js. -/

/-- The trigger word list in ChatService.getFallbackResponse. -/
def triggerWords : List String :=
  ["help", "stuck", "error", "problem", "issue", "confused", "not working"]

/-- JS String.prototype.includes, as substring containment on character
lists: the needle occurs as a prefix of some suffix of the string. -/
def jsIncludes (s needle : String) : Bool :=
  (List.range (s.toList.length + 1)).any
    (fun i => needle.toList.isPrefixOf (s.toList.drop i))

/-- The three canned fallback texts in getFallbackResponse. -/
def fallbackResponses : List String :=
  ["I’m having trouble connecting to my AI service right now. Let me try to help you with a basic response.",
   "Sorry, I’m experiencing some technical difficulties. Could you please try again in a moment?",
   "I’m currently unable to access my full capabilities. Please describe your issue and I’ll do my best to help."]

/-- The message part of a fallback response; the metadata mapping
(fallback: true, offline: true) is flattened into two boolean fields. -/
structure FallbackMessage where
  id : String
  role : String
  content : String
  metadataFallback : Bool
  metadataOffline : Bool
deriving DecidableEq, Repr

/-- The object built by ChatService.getFallbackResponse. -/
structure FallbackResponse where
  message : FallbackMessage
  conversation_id : String
  should_request_screen_share : Bool
  confidence_score : ℚ
deriving DecidableEq, Repr

/-- ChatService.getFallbackResponse: the screen-share flag is set exactly when
some trigger word occurs in the lowercased user message; the canned content is
picked pseudo-randomly (modelled by the pick argument); metadata marks the
message as fallback and offline. The now argument stands for Date.now(). -/
def getFallbackResponse (userMessage : String) (now : Nat) (pick : Fin 3) :
    FallbackResponse :=
  let needsScreenShare := triggerWords.any (fun w => jsIncludes userMessage.toLower w)
  { message :=
      { id := "fallback-" ++ toString now,
        role := "assistant",
        content := fallbackResponses.getD pick.val "",
        metadataFallback := true,
        metadataOffline := true },
    conversation_id := "offline-" ++ toString now,
    should_request_screen_share := needsScreenShare,
    confidence_score := if needsScreenShare then (8 : ℚ) / 10 else (2 : ℚ) / 10 }

/-- The data a successful chat gateway call returns; only the fields the
claims mention are modelled. -/
structure ChatData where
  messageContent : String
  conversationId : Option String
  shouldRequestScreenShare : Bool
deriving DecidableEq, Repr

/-- Result of ChatService.sendMessage: the success object or the failure
object carrying the error text and the fallback response. -/
inductive ChatSendResult where
  | ok (data : ChatData)
  | failed (error : String) (fallback : FallbackResponse)
deriving DecidableEq, Repr

/-- ChatService.sendMessage: a successful gateway call is returned as a
success result; a gateway failure (network error or non-success response,
modelled as the error case of the gateway argument) is caught and returned as
an unsuccessful result carrying the fallback response for the user message. -/
def ChatService.sendMessage (message : String) (gateway : Except String ChatData)
    (now : Nat) (pick : Fin 3) : ChatSendResult :=
  match gateway with
  | .ok d => .ok d
  | .error e => .failed e (getFallbackResponse message now pick)

/-! The ai-message event handler and the transcript callback, from
ChatWindow.jsx. -/

/-- The message field of an ai-message event detail: an optional id from the
backend and the content. -/
structure AiEventMessage where
  id : Option MsgId
  content : String
deriving DecidableEq, Repr

/-- The detail payload of an ai-message window event. -/
structure AiEventDetail where
  message : Option AiEventMessage
  conversation_id : Option String
deriving DecidableEq, Repr

/-- The ai-message event handler in ChatWindow: a missing detail or missing
message is ignored; otherwise a new assistant message is appended to the
messages state unconditionally — there is no duplicate-id check and no
ValidationError anywhere in the handler. -/
def handleAiMessage (msgs : List Message) (detail : Option AiEventDetail)
    (now : Nat) : List Message :=
  match detail with
  | none => msgs
  | some d =>
      match d.message with
      | none => msgs
      | some dm =>
          msgs ++ [{ id := dm.id.getD (MsgId.str ("ai-" ++ toString now)),
                     sender := Sender.ai, text := dm.content }]

/-- Effect of the onTranscript callback: either a user message auto-submitted
into the messages state, or draft text placed in the input field. -/
structure TranscriptEffect where
  appended : Option Message
  inputField : Option String
deriving DecidableEq, Repr

/-- JS String.prototype.trim: strip leading and trailing whitespace. -/
def jsTrim (s : String) : String :=
  String.mk
    (((s.toList.dropWhile Char.isWhitespace).reverse.dropWhile
        Char.isWhitespace).reverse)

/-- The onTranscript callback passed to SpeechInput: a truthy (nonempty)
transcript whose trimmed length exceeds 10 is auto-submitted as a user
message; otherwise the raw text is placed in the input field for manual
review. -/
def onTranscript (text : String) (now : Nat) : TranscriptEffect :=
  if text ≠ "" ∧ 10 < (jsTrim text).length then
    { appended := some { id := MsgId.str ("user-" ++ toString now),
                         sender := Sender.user, text := text },
      inputField := none }
  else
    { appended := none, inputField := some text }

/-! Helper lemmas about the playback queue step function. -/

theorem insertId_subset {played : List MsgId} {y : MsgId} :
    ∀ x ∈ played, x ∈ insertId played y := by
  intro x hx
  unfold insertId
  split
  · exact hx
  · exact List.mem_append_left _ hx

theorem mem_insertId_self (played : List MsgId) (y : MsgId) :
    y ∈ insertId played y := by
  unfold insertId
  split
  · assumption
  · exact List.mem_append_right _ (List.mem_singleton.mpr rfl)

theorem selectNext_spec {msgs : List Message} {played : List MsgId} {m : Message}
    (h : selectNext msgs played = some m) :
    m ∈ msgs ∧ m.sender = Sender.ai ∧ m.id ∉ played := by
  unfold selectNext at h
  have hmem := List.mem_of_find?_eq_some h
  have hp := List.find?_some h
  rw [aiMessages] at hmem
  rcases List.mem_filter.mp hmem with ⟨h1, h2⟩
  refine ⟨h1, of_decide_eq_true h2, ?_⟩
  simpa using hp

theorem runChain_playedMessageIds (s : ChatState) (c : Cont) :
    (runChain s c).playedMessageIds = s.playedMessageIds := by
  unfold runChain
  split
  · split <;> rfl
  · rfl

theorem runChain_messages (s : ChatState) (c : Cont) :
    (runChain s c).messages = s.messages := by
  unfold runChain
  split
  · split <;> rfl
  · rfl

/-- The continuation either starts nothing (captured flag unset, or no unplayed
assistant message in its captured snapshot) or starts exactly the message
selectNext picks from its captured snapshot. -/
theorem runChain_anatomy (s : ChatState) (c : Cont) :
    ((runChain s c).started = s.started ∧ (runChain s c).pending = s.pending) ∨
    ∃ m, selectNext c.capturedMessages s.playedMessageIds = some m ∧
      (runChain s c).started = s.started ++ [m.id] ∧
      (runChain s c).pending
        = s.pending ++ [⟨c.capturedActive, c.capturedMessages, m.id⟩] := by
  unfold runChain
  split
  · split
    next m heq => exact Or.inr ⟨m, heq, rfl, rfl⟩
    next heq => exact Or.inl ⟨rfl, rfl⟩
  · exact Or.inl ⟨rfl, rfl⟩

/-- Anatomy of one step of the playback queue: messages only grow by appending
at the end; playedMessageIds only grows; every in-flight operation either was
already in flight or captured either the current messages or the capture of an
operation already in flight; and the narration log either is unchanged or
gains exactly one id, selected by selectNext from the current messages or from
a captured snapshot, against the resulting playedMessageIds. -/
theorem step_anatomy {s s' : ChatState} {e : Event} (h : step s e = some s') :
    (∃ ts, s'.messages = s.messages ++ ts) ∧
    (∀ x ∈ s.playedMessageIds, x ∈ s'.playedMessageIds) ∧
    (∀ c' ∈ s'.pending, c' ∈ s.pending ∨
        c'.capturedMessages = s.messages ∨
        ∃ c ∈ s.pending, c'.capturedMessages = c.capturedMessages) ∧
    (s'.started = s.started ∨
      ∃ m L, (L = s.messages ∨ ∃ c ∈ s.pending, L = c.capturedMessages) ∧
        selectNext L s'.playedMessageIds = some m ∧
        s'.started = s.started ++ [m.id]) := by
  cases e with
  | toggle b =>
      simp only [step, Option.some.injEq] at h
      subst h
      exact ⟨⟨[], by simp⟩, fun x hx => hx, fun c' hc' => Or.inl hc', Or.inl rfl⟩
  | arrive m =>
      simp only [step, Option.some.injEq] at h
      subst h
      exact ⟨⟨[m], rfl⟩, fun x hx => hx, fun c' hc' => Or.inl hc', Or.inl rfl⟩
  | effectFire =>
      simp only [step] at h
      split at h
      · cases hsel : selectNext s.messages s.playedMessageIds with
        | some m =>
            rw [hsel] at h
            simp only [Option.some.injEq] at h
            subst h
            refine ⟨⟨[], by simp⟩, fun x hx => hx, ?_, ?_⟩
            · intro c' hc'
              rcases List.mem_append.mp hc' with hc' | hc'
              · exact Or.inl hc'
              · rcases List.mem_singleton.mp hc' with rfl
                exact Or.inr (Or.inl rfl)
            · exact Or.inr ⟨m, s.messages, Or.inl rfl, hsel, rfl⟩
        | none =>
            rw [hsel] at h
            simp only [Option.some.injEq] at h
            subst h
            exact ⟨⟨[], by simp⟩, fun x hx => hx, fun c' hc' => Or.inl hc', Or.inl rfl⟩
      · exact absurd h (by simp)
  | complete i o =>
      simp only [step] at h
      cases hc : s.pending[i]? with
      | none => rw [hc] at h; exact absurd h (by simp)
      | some c =>
          rw [hc] at h
          simp only [Option.some.injEq] at h
          have hcmem : c ∈ s.pending := List.getElem?_mem hc
          subst h
          refine ⟨⟨[], by simp [runChain_messages]⟩, ?_, ?_, ?_⟩
          · intro x hx
            rw [runChain_playedMessageIds]
            show x ∈ (if marksPlayed o then insertId s.playedMessageIds c.currentId
                      else s.playedMessageIds)
            split
            · exact insertId_subset x hx
            · exact hx
          · intro c' hc'
            rcases runChain_anatomy
                { s with pending := s.pending.eraseIdx i,
                         playedMessageIds :=
                           if marksPlayed o then insertId s.playedMessageIds c.currentId
                           else s.playedMessageIds,
                         isPlayingAudio := false } c with ⟨hst, hpd⟩ | ⟨m, hsel, hst, hpd⟩
            · rw [hpd] at hc'
              exact Or.inl ((List.eraseIdx_sublist s.pending i).subset hc')
            · rw [hpd] at hc'
              rcases List.mem_append.mp hc' with hc' | hc'
              · exact Or.inl ((List.eraseIdx_sublist s.pending i).subset hc')
              · rcases List.mem_singleton.mp hc' with rfl
                exact Or.inr (Or.inr ⟨c, hcmem, rfl⟩)
          · rcases runChain_anatomy
                { s with pending := s.pending.eraseIdx i,
                         playedMessageIds :=
                           if marksPlayed o then insertId s.playedMessageIds c.currentId
                           else s.playedMessageIds,
                         isPlayingAudio := false } c with ⟨hst, hpd⟩ | ⟨m, hsel, hst, hpd⟩
            · exact Or.inl hst
            · refine Or.inr ⟨m, c.capturedMessages, Or.inr ⟨c, hcmem, rfl⟩, ?_, hst⟩
              rw [runChain_playedMessageIds]
              exact hsel

/-- playedMessageIds grows monotonically along any run. -/
theorem reach_played_mono {s0 s : ChatState} (h : ReachFrom s0 s) :
    ∀ x ∈ s0.playedMessageIds, x ∈ s.playedMessageIds := by
  induction h with
  | refl => exact fun x hx => hx
  | tail e hr hs ih => exact fun x hx => (step_anatomy hs).2.1 x (ih x hx)

/-- Invariant behind claim C8: the greeting id stays marked played, it never
enters the narration log, every narrated id belongs to an assistant message of
the store, and every captured snapshot is contained in the store. -/
def C8Inv (s : ChatState) : Prop :=
  MsgId.num 1 ∈ s.playedMessageIds ∧
  MsgId.num 1 ∉ s.started ∧
  (∀ x ∈ s.started, ∃ m, m ∈ s.messages ∧ m.id = x ∧ m.sender = Sender.ai) ∧
  (∀ c ∈ s.pending, ∀ m ∈ c.capturedMessages, m ∈ s.messages)

theorem C8Inv_step {s s' : ChatState} {e : Event} (h : step s e = some s')
    (hinv : C8Inv s) : C8Inv s' := by
  obtain ⟨⟨ts, hmsg⟩, hmono, hpend, hstart⟩ := step_anatomy h
  obtain ⟨h1, h2, h3, h4⟩ := hinv
  have hmm : ∀ m, m ∈ s.messages → m ∈ s'.messages := by
    intro m hm
    rw [hmsg]
    exact List.mem_append_left _ hm
  refine ⟨hmono _ h1, ?_, ?_, ?_⟩
  · rcases hstart with hst | ⟨m, L, hL, hsel, hst⟩
    · rw [hst]; exact h2
    · rw [hst]
      intro hmem
      rcases List.mem_append.mp hmem with hmem | hmem
      · exact h2 hmem
      · have heq := List.mem_singleton.mp hmem
        apply (selectNext_spec hsel).2.2
        rw [← heq]
        exact hmono _ h1
  · rcases hstart with hst | ⟨m, L, hL, hsel, hst⟩
    · rw [hst]
      intro x hx
      obtain ⟨mm, hmem, hid, hsend⟩ := h3 x hx
      exact ⟨mm, hmm mm hmem, hid, hsend⟩
    · rw [hst]
      intro x hx
      rcases List.mem_append.mp hx with hx | hx
      · obtain ⟨mm, hmem, hid, hsend⟩ := h3 x hx
        exact ⟨mm, hmm mm hmem, hid, hsend⟩
      · obtain ⟨hmL, hsend, _⟩ := selectNext_spec hsel
        have hmS : m ∈ s.messages := by
          rcases hL with rfl | ⟨c, hcmem, rfl⟩
          · exact hmL
          · exact h4 c hcmem m hmL
        exact ⟨m, hmm m hmS, (List.mem_singleton.mp hx).symm, hsend⟩
  · intro c' hc'
    rcases hpend c' hc' with hc' | hcap | ⟨c, hcmem, hcap⟩
    · intro m hm
      exact hmm m (h4 c' hc' m hm)
    · intro m hm
      rw [hcap] at hm
      exact hmm m hm
    · intro m hm
      rw [hcap] at hm
      exact hmm m (h4 c hcmem m hm)

theorem C8Inv_init : C8Inv initState := by
  refine ⟨by decide, by decide, ?_, ?_⟩
  · intro x hx
    exact absurd hx (List.not_mem_nil x)
  · intro c hc
    exact absurd hc (List.not_mem_nil c)

theorem reach_C8Inv {s : ChatState} (h : Reachable s) : C8Inv s := by
  induction h with
  | refl => exact C8Inv_init
  | tail e hr hs ih => exact C8Inv_step hs ih

/-! The C6 scenario: assistant message M1, user message M2, assistant message
M3 appended in that order, none played yet. -/

/-- The assistant message M1 of the FIFO scenario. -/
def m1msg : Message :=
  { id := MsgId.str "m1", sender := Sender.ai, text := "first assistant reply" }

/-- The user message M2 of the FIFO scenario. -/
def m2user : Message :=
  { id := MsgId.str "m2", sender := Sender.user, text := "a user message" }

/-- The assistant message M3 of the FIFO scenario. -/
def m3msg : Message :=
  { id := MsgId.str "m3", sender := Sender.ai, text := "second assistant reply" }

/-- The message store content of the FIFO scenario. -/
def c6base : List Message := [greeting, m1msg, m2user, m3msg]

/-- The ChatWindow state after M1, M2, M3 arrived, before autoplay is enabled. -/
def c6s3 : ChatState :=
  { messages := c6base, isAutoplayActive := false, isPlayingAudio := false,
    playedMessageIds := [MsgId.num 1], pending := [], started := [] }

theorem aiMessages_c6base (rest : List Message) :
    aiMessages (c6base ++ rest) = greeting :: m1msg :: m3msg :: aiMessages rest := rfl

/-- On any store extending the scenario, selectNext can pick M3 only when M1 is
already marked played (the greeting being marked as well). -/
theorem selectNext_m3_after_m1 {rest : List Message} {played : List MsgId}
    {m : Message} (h1 : MsgId.num 1 ∈ played)
    (hsel : selectNext (c6base ++ rest) played = some m)
    (hm3 : m.id = MsgId.str "m3") :
    MsgId.str "m1" ∈ played := by
  unfold selectNext at hsel
  rw [aiMessages_c6base] at hsel
  rw [List.find?_cons_of_neg _ (by simp [greeting, h1])] at hsel
  by_cases h2 : MsgId.str "m1" ∈ played
  · exact h2
  · rw [List.find?_cons_of_pos _ (by simp [m1msg, h2])] at hsel
    simp only [Option.some.injEq] at hsel
    rw [← hsel] at hm3
    exact absurd hm3 (by decide)

/-- Invariant behind claim C6: the store and every captured snapshot extend the
scenario prefix, the greeting stays marked, and M3 enters the narration log
only after M1 is marked played. -/
def C6Inv (s : ChatState) : Prop :=
  (∃ rest, s.messages = c6base ++ rest) ∧
  (∀ c ∈ s.pending, ∃ rest, c.capturedMessages = c6base ++ rest) ∧
  MsgId.num 1 ∈ s.playedMessageIds ∧
  (MsgId.str "m3" ∈ s.started → MsgId.str "m1" ∈ s.playedMessageIds)

theorem C6Inv_step {s s' : ChatState} {e : Event} (h : step s e = some s')
    (hinv : C6Inv s) : C6Inv s' := by
  obtain ⟨⟨ts, hmsg⟩, hmono, hpend, hstart⟩ := step_anatomy h
  obtain ⟨⟨rest, hrest⟩, h2, h3, h4⟩ := hinv
  refine ⟨⟨rest ++ ts, by rw [hmsg, hrest, List.append_assoc]⟩, ?_, hmono _ h3, ?_⟩
  · intro c' hc'
    rcases hpend c' hc' with hc' | hcap | ⟨c, hcmem, hcap⟩
    · exact h2 c' hc'
    · exact ⟨rest, by rw [hcap, hrest]⟩
    · obtain ⟨r2, hr2⟩ := h2 c hcmem
      exact ⟨r2, by rw [hcap, hr2]⟩
  · rcases hstart with hst | ⟨m, L, hL, hsel, hst⟩
    · rw [hst]
      intro hx
      exact hmono _ (h4 hx)
    · rw [hst]
      intro hx
      rcases List.mem_append.mp hx with hx | hx
      · exact hmono _ (h4 hx)
      · have hLbase : ∃ r, L = c6base ++ r := by
          rcases hL with rfl | ⟨c, hcmem, rfl⟩
          · exact ⟨rest, hrest⟩
          · exact h2 c hcmem
        obtain ⟨r, rfl⟩ := hLbase
        exact selectNext_m3_after_m1 (hmono _ h3) hsel (List.mem_singleton.mp hx).symm

theorem reach_C6Inv {s : ChatState} (h : ReachFrom c6s3 s) : C6Inv s := by
  induction h with
  | refl =>
      refine ⟨⟨[], by simp [c6s3]⟩, ?_, by decide, by decide⟩
      intro c hc
      exact absurd hc (List.not_mem_nil c)
  | tail e hr hs ih => exact C6Inv_step hs ih

/-! Per-step facts about completions, for claims C1, C4 and C5. -/

/-- Claim C1 (as amended): when a synthesis-and-playback attempt for the
current message completes through the audio element (playback finished, audio
error, or rejected play call — all outcomes of a successful gateway call), the
message id is added to playedMessageIds and the queue advances: any operation
newly in flight afterwards is for a still-unplayed id, hence a different one.
When the gateway call itself fails (network error or non-success response),
the id is NOT added to playedMessageIds, so the queue re-selects the same
message instead of advancing. -/
theorem c1_completion_marks_and_advances {s : ChatState} {i : Nat}
    {o : TTSOutcome} {c : Cont}
    {s' : ChatState} (hc : s.pending[i]? = some c)
    (h : step s (Event.complete i o) = some s') :
    (marksPlayed o = true → c.currentId ∈ s'.playedMessageIds) ∧
    (marksPlayed o = false → s'.playedMessageIds = s.playedMessageIds) ∧
    (∀ c' ∈ s'.pending, c' ∈ s.pending.eraseIdx i ∨
        (c'.capturedMessages = c.capturedMessages ∧
          c'.currentId ∉ s'.playedMessageIds)) := by
  simp only [step] at h
  rw [hc] at h
  simp only [Option.some.injEq] at h
  subst h
  refine ⟨?_, ?_, ?_⟩
  · intro hmp
    rw [runChain_playedMessageIds]
    simp only [hmp, if_true]
    exact mem_insertId_self _ _
  · intro hmp
    rw [runChain_playedMessageIds]
    simp [hmp]
  · intro c' hc'
    rcases runChain_anatomy
        { s with pending := s.pending.eraseIdx i,
                 playedMessageIds :=
                   if marksPlayed o then insertId s.playedMessageIds c.currentId
                   else s.playedMessageIds,
                 isPlayingAudio := false } c with ⟨hst, hpd⟩ | ⟨m, hsel, hst, hpd⟩
    · rw [hpd] at hc'
      exact Or.inl hc'
    · rw [hpd] at hc'
      rcases List.mem_append.mp hc' with hc' | hc'
      · exact Or.inl hc'
      · rcases List.mem_singleton.mp hc' with rfl
        refine Or.inr ⟨rfl, ?_⟩
        rw [runChain_playedMessageIds]
        exact (selectNext_spec hsel).2.2

/-- Claim C4 (as amended): after disable() the result of an in-flight
synthesis is handled by a continuation that consults the isAutoplayActive
value CAPTURED when its playback chain began, not the current flag: a chain
whose captured flag is false takes no further action, but a chain captured
while autoplay was active resumes playback and marks later messages even
though autoplay is now disabled. -/
theorem c4_inflight_checks_captured_flag {s : ChatState} {i : Nat}
    {o : TTSOutcome} {c : Cont} {s' : ChatState} (hc : s.pending[i]? = some c)
    (h : step s (Event.complete i o) = some s')
    (hdisabled : s.isAutoplayActive = false) :
    (c.capturedActive = false →
        s'.started = s.started ∧ s'.isPlayingAudio = false ∧
        s'.pending = s.pending.eraseIdx i) ∧
    (c.capturedActive = true →
        ∀ m, selectNext c.capturedMessages s'.playedMessageIds = some m →
          s'.started = s.started ++ [m.id] ∧ s'.isPlayingAudio = true ∧
          (⟨c.capturedActive, c.capturedMessages, m.id⟩ : Cont) ∈ s'.pending) := by
  simp only [step] at h
  rw [hc] at h
  simp only [Option.some.injEq] at h
  subst h
  constructor
  · intro hact
    unfold runChain
    simp [hact]
  · intro hact m hm
    rw [runChain_playedMessageIds] at hm
    unfold runChain
    simp only [hact, if_true]
    rw [hm]
    refine ⟨rfl, rfl, ?_⟩
    exact List.mem_append_right _ (List.mem_singleton.mpr rfl)

/-! Lemmas about the modelled CaptureScheduler. -/

theorem capStep_inFlight_le {s s' : CapState} {e : Nat × CapEvent}
    (h : capStep s e = some s') (hs : s.inFlight ≤ 1) : s'.inFlight ≤ 1 := by
  obtain ⟨t, ev⟩ := e
  cases ev with
  | start =>
      simp only [capStep] at h
      split at h
      · split at h
        · exact absurd h (by simp)
        · simp only [Option.some.injEq] at h
          subst h
          exact hs
      · exact absurd h (by simp)
  | tick =>
      simp only [capStep] at h
      split at h
      · split at h
        · split at h <;> (simp only [Option.some.injEq] at h; subst h)
          · show (1 : Nat) ≤ 1
            omega
          · exact hs
        · exact absurd h (by simp)
      · exact absurd h (by simp)
  | complete r =>
      simp only [capStep] at h
      split at h
      · split at h
        · exact absurd h (by simp)
        · simp only [Option.some.injEq] at h
          subst h
          show s.inFlight - 1 ≤ 1
          omega
      · exact absurd h (by simp)
  | stop =>
      simp only [capStep] at h
      split at h
      · split at h
        · simp only [Option.some.injEq] at h
          subst h
          exact hs
        · exact absurd h (by simp)
      · exact absurd h (by simp)

/-- The CaptureScheduler state reached by a list of timed events from the idle
scheduler. -/
def capStateAfter (tr : List (Nat × CapEvent)) : CapState :=
  (capRun capInit tr).getD capInit

/-! Claim theorems, counterexamples and witnesses. -/

/-- Counterexample to claim C1 as stated: the single assistant message m1
arrives, autoplay is enabled, its synthesis is attempted, and the gateway
returns a non-success response. Contrary to the claim, the id is NOT added to
playedMessageIds and the queue does not advance: it selects the very same
message again (the narration log shows m1 started twice and the new in-flight
operation is again for m1), so a persistently failing synthesis blocks the
queue on the same message. -/
theorem c1_gateway_failure_blocks_queue :
    (run initState [Event.arrive m1msg, Event.toggle true, Event.effectFire,
        Event.complete 0 TTSOutcome.fetchNotOk]).map
      (fun s => (decide (MsgId.str "m1" ∈ s.playedMessageIds), s.started,
        s.pending.map Cont.currentId))
      = some (false, [MsgId.str "m1", MsgId.str "m1"], [MsgId.str "m1"]) := by
  decide

theorem c1_completion_marks_and_advances_witness :
    MsgId.str "m1" ∈ (stateAfter [Event.arrive m1msg, Event.toggle true,
      Event.effectFire, Event.complete 0 TTSOutcome.audioEnded]).playedMessageIds :=
  (@c1_completion_marks_and_advances
    (stateAfter [Event.arrive m1msg, Event.toggle true, Event.effectFire])
    0 TTSOutcome.audioEnded
    ⟨true, [greeting, m1msg], MsgId.str "m1"⟩
    (stateAfter [Event.arrive m1msg, Event.toggle true, Event.effectFire,
      Event.complete 0 TTSOutcome.audioEnded])
    (by decide) (by decide)).1 rfl

/-- Claim C2 (confirmed, modelled from the spec): on session start the
scheduler begins a fixed-period timer with period 10 time units; on every
reachable state at most one capture-and-upload operation is in flight; a tick
that fires while a previous cycle is still pending only reschedules the timer
and performs no capture and no upload (nothing is captured, uploaded or
queued). -/
theorem c2_capture_scheduler {s : CapState} (h : CapReachable s) :
    s.inFlight ≤ 1 ∧
    (∀ t s', capStep s (t, CapEvent.start) = some s' →
        s'.active = true ∧ s'.deadline = some (t + capturePeriod)) ∧
    (∀ t s', capStep s (t, CapEvent.tick) = some s' →
        s'.deadline = some (t + capturePeriod) ∧
        (1 ≤ s.inFlight → s'.captures = s.captures ∧ s'.inFlight = s.inFlight ∧
            s'.published = s.published)) ∧
    capturePeriod = 10 := by
  refine ⟨?_, ?_, ?_, rfl⟩
  · induction h with
    | refl => decide
    | tail e hr hs ih => exact capStep_inFlight_le hs ih
  · intro t s' hstep
    simp only [capStep] at hstep
    split at hstep
    · split at hstep
      · exact absurd hstep (by simp)
      · simp only [Option.some.injEq] at hstep
        subst hstep
        exact ⟨rfl, rfl⟩
    · exact absurd hstep (by simp)
  · intro t s' hstep
    simp only [capStep] at hstep
    split at hstep
    · split at hstep
      case isTrue =>
        split at hstep
        case isTrue h0 =>
          simp only [Option.some.injEq] at hstep
          subst hstep
          exact ⟨rfl, fun h1 => absurd h0 (by omega)⟩
        case isFalse h0 =>
          simp only [Option.some.injEq] at hstep
          subst hstep
          exact ⟨rfl, fun _ => ⟨rfl, rfl, rfl⟩⟩
      case isFalse => exact absurd hstep (by simp)
    · exact absurd hstep (by simp)

theorem c2_capture_scheduler_witness :
    (capStateAfter [(0, CapEvent.start), (10, CapEvent.tick)]).inFlight ≤ 1 := by
  have h1 : CapReachFrom capInit (capStateAfter [(0, CapEvent.start)]) :=
    CapReachFrom.tail (0, CapEvent.start) CapReachFrom.refl (by decide)
  have h2 : CapReachFrom capInit
      (capStateAfter [(0, CapEvent.start), (10, CapEvent.tick)]) :=
    CapReachFrom.tail (10, CapEvent.tick) h1 (by decide)
  exact (c2_capture_scheduler h2).1

/-- Claim C3 (confirmed, modelled from the spec): once the capture session is
stopped (active flag cleared), no later event short of starting a new session
publishes anything: in particular an in-flight upload that resolves after the
stop, even successfully, publishes no arrival message and appends nothing —
its completion sees the cleared active flag and discards the result. -/
theorem c3_post_stop_discard (s : CapState) (hstop : s.active = false)
    (tr : List (Nat × CapEvent)) (hns : ∀ p ∈ tr, p.2 ≠ CapEvent.start)
    {s' : CapState} (h : capRun s tr = some s') :
    s'.published = s.published := by
  induction tr generalizing s with
  | nil =>
      simp only [capRun, Option.some.injEq] at h
      subst h
      rfl
  | cons p rest ih =>
      obtain ⟨t, ev⟩ := p
      simp only [capRun] at h
      cases hstep : capStep s (t, ev) with
      | none =>
          rw [hstep] at h
          exact absurd h (by simp)
      | some u =>
          rw [hstep] at h
          have hu : u.active = false ∧ u.published = s.published := by
            cases ev with
            | start =>
                exact absurd rfl (hns (t, CapEvent.start) (List.mem_cons_self _ _))
            | tick =>
                simp only [capStep] at hstep
                split at hstep
                · split at hstep
                  case isTrue hcond =>
                      rw [hstop] at hcond
                      exact absurd hcond.1 (by simp)
                  case isFalse => exact absurd hstep (by simp)
                · exact absurd hstep (by simp)
            | complete r =>
                simp only [capStep] at hstep
                split at hstep
                · split at hstep
                  · exact absurd hstep (by simp)
                  · simp only [Option.some.injEq] at hstep
                    subst hstep
                    refine ⟨hstop, ?_⟩
                    show s.published ++ _ = s.published
                    rw [hstop]
                    simp
                · exact absurd hstep (by simp)
            | stop =>
                simp only [capStep] at hstep
                split at hstep
                · split at hstep
                  case isTrue hcond =>
                      rw [hstop] at hcond
                      exact absurd hcond (by simp)
                  case isFalse => exact absurd hstep (by simp)
                · exact absurd hstep (by simp)
          have hrest := ih u hu.1 (fun p hp => hns p (List.mem_cons_of_mem _ hp)) h
          rw [hrest, hu.2]

theorem c3_post_stop_discard_witness :
    (capStateAfter [(0, CapEvent.start), (10, CapEvent.tick), (12, CapEvent.stop),
        (15, CapEvent.complete (CapResult.success (some "ocr")))]).published
      = (capStateAfter [(0, CapEvent.start), (10, CapEvent.tick),
          (12, CapEvent.stop)]).published :=
  c3_post_stop_discard
    (capStateAfter [(0, CapEvent.start), (10, CapEvent.tick), (12, CapEvent.stop)])
    (by decide) [(15, CapEvent.complete (CapResult.success (some "ocr")))]
    (by decide) (by decide)

theorem c4_inflight_checks_captured_flag_witness :
    (stateAfter [Event.arrive m1msg, Event.arrive m3msg, Event.toggle true,
      Event.effectFire, Event.toggle false,
      Event.complete 0 TTSOutcome.audioEnded]).isPlayingAudio = true :=
  ((@c4_inflight_checks_captured_flag
    (stateAfter [Event.arrive m1msg, Event.arrive m3msg, Event.toggle true,
      Event.effectFire, Event.toggle false])
    0 TTSOutcome.audioEnded
    ⟨true, [greeting, m1msg, m3msg], MsgId.str "m1"⟩
    (stateAfter [Event.arrive m1msg, Event.arrive m3msg, Event.toggle true,
      Event.effectFire, Event.toggle false, Event.complete 0 TTSOutcome.audioEnded])
    (by decide) (by decide) (by decide)).2 rfl m3msg (by decide)).2.1

/-- Counterexample to claim C4 as stated: two assistant messages m1 and m3
arrive, autoplay is enabled and m1 starts playing, then autoplay is disabled
while m1 is still in flight. When the in-flight playback settles, the
continuation — reading its captured flag, not the current one — resumes
playback of m3 and marks it played, even though autoplay is off the whole
time: the in-flight result is not ignored. -/
theorem c4_disable_ignored_counterexample :
    (run initState [Event.arrive m1msg, Event.arrive m3msg, Event.toggle true,
        Event.effectFire, Event.toggle false,
        Event.complete 0 TTSOutcome.audioEnded,
        Event.complete 0 TTSOutcome.audioEnded]).map
      (fun s => (s.isAutoplayActive, decide (MsgId.str "m3" ∈ s.playedMessageIds),
        s.started))
      = some (false, true, [MsgId.str "m1", MsgId.str "m3"]) := by
  decide

/-- Claim C5 (as amended): along every step playedMessageIds only grows, and a
message id already in playedMessageIds is never selected for narration again —
its number of entries in the narration log never changes once it is marked.
(The at-most-once part of the original claim fails for ids not yet marked: see
the counterexample.) -/
theorem c5_played_monotone_never_reselected (s : ChatState) (e : Event)
    (s' : ChatState) (h : step s e = some s') :
    (∀ x ∈ s.playedMessageIds, x ∈ s'.playedMessageIds) ∧
    (∀ x ∈ s.playedMessageIds, s'.started.count x = s.started.count x) := by
  obtain ⟨_, hmono, _, hstart⟩ := step_anatomy h
  refine ⟨hmono, ?_⟩
  intro x hx
  rcases hstart with hst | ⟨m, L, hL, hsel, hst⟩
  · rw [hst]
  · have hne : ¬ (x = m.id) := by
      intro heq
      exact (selectNext_spec hsel).2.2 (heq ▸ hmono x hx)
    have hz : List.count x [m.id] = 0 := by
      rw [List.count_eq_zero]
      simp [hne]
    rw [hst, List.count_append, hz, Nat.add_zero]

theorem c5_played_monotone_never_reselected_witness :
    (∀ x ∈ initState.playedMessageIds,
        x ∈ (stateAfter [Event.toggle true]).playedMessageIds) ∧
    (∀ x ∈ initState.playedMessageIds,
        (stateAfter [Event.toggle true]).started.count x
          = initState.started.count x) :=
  c5_played_monotone_never_reselected initState (Event.toggle true)
    (stateAfter [Event.toggle true]) (by decide)

/-- Counterexample to claim C5 as stated: the assistant message m1 arrives,
autoplay is enabled (m1 starts playing), autoplay is disabled and re-enabled
while m1 is still in flight, upon which the effect starts a second chain that
selects m1 again — m1 is narrated twice, and both playbacks complete. -/
theorem c5_double_narration_counterexample :
    (run initState [Event.arrive m1msg, Event.toggle true, Event.effectFire,
        Event.toggle false, Event.toggle true, Event.effectFire,
        Event.complete 0 TTSOutcome.audioEnded,
        Event.complete 0 TTSOutcome.audioEnded]).map
      (fun s => s.started.count (MsgId.str "m1"))
      = some 2 := by
  decide

/-- Claim C6 (confirmed): with assistant M1, user M2 and assistant M3 appended
in that order and none played, enabling autoplay narrates M1 then M3 and skips
M2 (the narration log of the run is exactly m1 then m3, after which the queue
is idle); and under every schedule of further events, M3 enters the narration
log only after M1 has been marked played — never M3 before M1. -/
theorem c6_fifo_playback :
    (run initState [Event.arrive m1msg, Event.arrive m2user, Event.arrive m3msg]
      = some c6s3) ∧
    ((run c6s3 [Event.toggle true, Event.effectFire,
        Event.complete 0 TTSOutcome.audioEnded,
        Event.complete 0 TTSOutcome.audioEnded]).map
      (fun s => (s.started, s.isPlayingAudio))
      = some ([MsgId.str "m1", MsgId.str "m3"], false)) ∧
    (∀ s, ReachFrom c6s3 s → MsgId.str "m3" ∈ s.started →
        MsgId.str "m1" ∈ s.playedMessageIds) := by
  refine ⟨by decide, by decide, ?_⟩
  intro s h hm3
  exact (reach_C6Inv h).2.2.2 hm3

/-- The run of the C6 scenario from the post-arrival state. -/
def c6runAfter (tr : List Event) : ChatState := (run c6s3 tr).getD c6s3

theorem c6_fifo_playback_witness :
    MsgId.str "m1" ∈ (c6runAfter [Event.toggle true, Event.effectFire,
      Event.complete 0 TTSOutcome.audioEnded,
      Event.complete 0 TTSOutcome.audioEnded]).playedMessageIds := by
  have h1 : ReachFrom c6s3 (c6runAfter [Event.toggle true]) :=
    ReachFrom.tail (Event.toggle true) ReachFrom.refl (by decide)
  have h2 : ReachFrom c6s3 (c6runAfter [Event.toggle true, Event.effectFire]) :=
    ReachFrom.tail Event.effectFire h1 (by decide)
  have h3 : ReachFrom c6s3 (c6runAfter [Event.toggle true, Event.effectFire,
      Event.complete 0 TTSOutcome.audioEnded]) :=
    ReachFrom.tail (Event.complete 0 TTSOutcome.audioEnded) h2 (by decide)
  have h4 : ReachFrom c6s3 (c6runAfter [Event.toggle true, Event.effectFire,
      Event.complete 0 TTSOutcome.audioEnded,
      Event.complete 0 TTSOutcome.audioEnded]) :=
    ReachFrom.tail (Event.complete 0 TTSOutcome.audioEnded) h3 (by decide)
  exact c6_fifo_playback.2.2 _ h4 (by decide)

/-- Counterexample to claim C7 as stated: handling the same ai-message event
twice (same id dup) raises no ValidationError — the handler has no failure
path at all — and leaves the store with two copies of that id, not one. -/
theorem c7_duplicate_append_counterexample :
    (let d : Option AiEventDetail :=
      some { message := some { id := some (MsgId.str "dup"), content := "x" },
             conversation_id := none }
    let l := handleAiMessage (handleAiMessage [greeting] d 0) d 1
    l.countP (fun m => decide (m.id = MsgId.str "dup")) = 2 ∧
      ¬ l.countP (fun m => decide (m.id = MsgId.str "dup")) = 1) := by
  decide

/-- Claim C7 (as amended): the append performed by the ai-message handler is
unconditional: it inserts at the end whether or not the id is already present
(no duplicate-id check exists and no ValidationError is raised), so a second
append with the same id simply yields a second copy, while the existing
messages are left unchanged in order. -/
theorem c7_append_unconditional (msgs : List Message) (d : AiEventDetail)
    (dm : AiEventMessage) (hd : d.message = some dm) (now : Nat) :
    (handleAiMessage msgs (some d) now).countP
        (fun m => decide (m.id = dm.id.getD (MsgId.str ("ai-" ++ toString now))))
      = msgs.countP
          (fun m => decide (m.id = dm.id.getD (MsgId.str ("ai-" ++ toString now)))) + 1 ∧
    (handleAiMessage msgs (some d) now).take msgs.length = msgs := by
  simp only [handleAiMessage, hd]
  constructor
  · rw [List.countP_append]
    simp
  · exact List.take_left msgs _

theorem c7_append_unconditional_witness :
    (handleAiMessage [greeting]
        (some { message := some { id := some (MsgId.str "dup"), content := "x" },
                conversation_id := none }) 1).countP
      (fun m => decide (m.id = MsgId.str "dup")) = 1 :=
  (c7_append_unconditional [greeting]
      { message := some { id := some (MsgId.str "dup"), content := "x" },
        conversation_id := none }
      { id := some (MsgId.str "dup"), content := "x" } rfl 1).1.trans (by decide)

/-- Claim C8 (confirmed): on every reachable state of the autoplay subsystem
the greeting id 1 — pre-marked played at mount — never appears in the
narration log (the greeting is never auto-narrated, under any sequence of
toggles, arrivals, effect runs and completions), and every narrated id is the
id of an assistant-authored message of the store. -/
theorem c8_greeting_never_narrated {s : ChatState} (h : Reachable s) :
    MsgId.num 1 ∉ s.started ∧
    ∀ x ∈ s.started, ∃ m, m ∈ s.messages ∧ m.id = x ∧ m.sender = Sender.ai :=
  ⟨(reach_C8Inv h).2.1, (reach_C8Inv h).2.2.1⟩

theorem c8_greeting_never_narrated_witness :
    MsgId.num 1 ∉ (stateAfter [Event.arrive m1msg, Event.toggle true,
      Event.effectFire]).started := by
  have h1 : ReachFrom initState (stateAfter [Event.arrive m1msg]) :=
    ReachFrom.tail (Event.arrive m1msg) ReachFrom.refl (by decide)
  have h2 : ReachFrom initState
      (stateAfter [Event.arrive m1msg, Event.toggle true]) :=
    ReachFrom.tail (Event.toggle true) h1 (by decide)
  have h3 : ReachFrom initState
      (stateAfter [Event.arrive m1msg, Event.toggle true, Event.effectFire]) :=
    ReachFrom.tail Event.effectFire h2 (by decide)
  exact (c8_greeting_never_narrated h3).1

/-- Counterexample to claim C9 as stated: the transcript consisting of hello
followed by six spaces has length 11, exceeding the 10-character threshold,
yet it is NOT auto-submitted — the code compares the TRIMMED length, 5 — and
is placed in the input field as draft text instead. -/
theorem c9_untrimmed_length_counterexample :
    10 < ("hello      " : String).length ∧
    (onTranscript "hello      " 0).appended = none ∧
    (onTranscript "hello      " 0).inputField = some "hello      " := by
  decide

/-- Claim C9 (as amended): a recognized transcript is auto-submitted as a user
message exactly when it is nonempty and its whitespace-TRIMMED length exceeds
10 characters; otherwise it is placed in the input field as draft text
requiring manual confirmation, and any auto-submitted message is user-authored
and carries the raw transcript. -/
theorem c9_trimmed_threshold (text : String) (now : Nat) :
    ((onTranscript text now).appended.isSome = true ↔
      (text ≠ "" ∧ 10 < (jsTrim text).length)) ∧
    ((onTranscript text now).appended = none →
      (onTranscript text now).inputField = some text) ∧
    (∀ m, (onTranscript text now).appended = some m →
      m.sender = Sender.user ∧ m.text = text) := by
  unfold onTranscript
  split
  case isTrue hcond =>
    refine ⟨iff_of_true rfl hcond, ?_, ?_⟩
    · intro hnone
      exact absurd hnone (by simp)
    · intro m hm
      simp only [Option.some.injEq] at hm
      rw [← hm]
      exact ⟨rfl, rfl⟩
  case isFalse hcond =>
    refine ⟨iff_of_false (by simp) hcond, fun _ => rfl, ?_⟩
    intro m hm
    exact absurd hm (by simp)

theorem c9_trimmed_threshold_witness :
    (onTranscript "where is the settings page" 3).appended.isSome = true :=
  ((c9_trimmed_threshold "where is the settings page" 3).1).mpr (by decide)

/-- Claim C10 (confirmed): when the chat gateway call fails,
ChatService.sendMessage returns an unsuccessful result carrying a fallback
response whose screen-share request flag is true exactly when the lowercased
user message contains one of the seven trigger words, and whose message
metadata marks it as fallback and offline. -/
theorem c10_offline_fallback (message e : String) (now : Nat) (pick : Fin 3) :
    ∃ fb, ChatService.sendMessage message (Except.error e) now pick
        = ChatSendResult.failed e fb ∧
      (fb.should_request_screen_share = true ↔
        ∃ w ∈ triggerWords, jsIncludes message.toLower w = true) ∧
      fb.message.metadataFallback = true ∧ fb.message.metadataOffline = true := by
  refine ⟨getFallbackResponse message now pick, rfl, ?_, rfl, rfl⟩
  show (triggerWords.any fun w => jsIncludes message.toLower w) = true ↔ _
  rw [List.any_eq_true]

end Support
